import Mathlib

/-!
Shallow embedding of the olc-datafile-rust repository: the `Datafile` tree
model (src/datafile.rs), the line-oriented recursive-descent parser
(src/processor/reader.rs), the structural serializer
(src/processor/writer.rs) and the lexical coercion layer
(src/lexical/integer.rs, src/lexical/real.rs).

Rust strings are modelled as Lean `String`; every `str` operation the code
uses (`trim`, `starts_with`, `contains`, `split_once`, `replace`) is
re-implemented over the underlying `List Char` so that concrete
evaluations reduce in the kernel.  Mutation through `&mut` references is
modelled by explicit state passing: a method that mutates `self` becomes a
function returning the updated value, and a method returning `&mut` to a
child returns the updated parent together with the child's index.
-/

/-- Model of `char::is_whitespace` restricted to the ASCII whitespace the
format ever produces (space, tab, carriage return, newline). -/
def isWsChar (c : Char) : Bool :=
  c = ' ' || c = '\t' || c = '\r' || c = '\n'

/-- Model of `str::trim`: drop whitespace from both ends. -/
def strTrim (s : String) : String :=
  String.mk (((s.data.dropWhile isWsChar).reverse.dropWhile isWsChar).reverse)

/-- Model of `str::starts_with(c: char)`: test the first character. -/
def strStartsWith (s : String) (c : Char) : Bool :=
  match s.data with
  | [] => false
  | d :: _ => d = c

/-- Model of `str::contains(c: char)`. -/
def strContains (s : String) (c : Char) : Bool :=
  s.data.contains c

/-- Helper for `str::split_once`: split a character list at the first
occurrence of `c`, the occurrence itself excluded from both parts. -/
def splitOnceAux (c : Char) : List Char → Option (List Char × List Char)
  | [] => none
  | d :: ds =>
    if d = c then some ([], ds)
    else (splitOnceAux c ds).map (fun p => (d :: p.1, p.2))

/-- Model of `str::split_once(c: char)`. -/
def strSplitOnce (s : String) (c : Char) : Option (String × String) :=
  (splitOnceAux c s.data).map (fun p => (String.mk p.1, String.mk p.2))

/-- Model of `str::replace(from: char, to: char)` (as used with `',' → '.'`). -/
def strReplaceChar (s : String) (a b : Char) : String :=
  String.mk (s.data.map (fun c => if c = a then b else c))

/-- Split a character list at every occurrence of `c`; always returns at
least one (possibly empty) chunk, like Rust's `str::split`. -/
def splitAllChars (c : Char) : List Char → List (List Char)
  | [] => [[]]
  | d :: ds =>
    match splitAllChars c ds with
    | [] => if d = c then [[], []] else [[d]]
    | h :: t => if d = c then [] :: h :: t else (d :: h) :: t

/-- The segments of a dotted name: `"a.b.c"` becomes `["a", "b", "c"]`. -/
def dotSegments (s : String) : List String :=
  (splitAllChars '.' s.data).map String.mk

/-- Model of `BufRead::lines` applied to a full buffer: split on `'\n'`,
with no trailing empty line when the buffer ends in a newline, and no
lines at all for the empty buffer. -/
def rustLines (s : String) : List String :=
  match (splitAllChars '\n' s.data).reverse with
  | [] => []
  | h :: t => (if h.isEmpty then t.reverse else (h :: t).reverse).map String.mk

/-!  The tree model, from src/datafile.rs.

`Datafile` is the single entity: configuration (`list_separator`,
`whitespace_sequence`), the comment flag, the ordered value list
`contents`, the ordered child list `object_vec`, and the name-to-index
map `object_map`.  The Rust `HashMap<String, usize>` is modelled as an
association list where `insert` conses and lookup takes the first match,
which reproduces `HashMap`'s overwrite-on-insert lookup semantics. -/

inductive Datafile where
  | mk (listSeparator : Char) (whitespaceSequence : String) (isComment : Bool)
       (contents : List String) (objectVec : List (String × Datafile))
       (objectMap : List (String × Nat))

def Datafile.listSeparator : Datafile → Char
  | .mk s _ _ _ _ _ => s

def Datafile.whitespaceSequence : Datafile → String
  | .mk _ w _ _ _ _ => w

def Datafile.isComment : Datafile → Bool
  | .mk _ _ c _ _ _ => c

def Datafile.contents : Datafile → List String
  | .mk _ _ _ cs _ _ => cs

def Datafile.objectVec : Datafile → List (String × Datafile)
  | .mk _ _ _ _ ov _ => ov

def Datafile.objectMap : Datafile → List (String × Nat)
  | .mk _ _ _ _ _ m => m

/-- Lookup in the modelled `object_map` (first match wins). -/
def mapLookup : List (String × Nat) → String → Option Nat
  | [], _ => none
  | (k, v) :: rest, n => if k = n then some v else mapLookup rest n

/-- Model of `HashMap::insert` under first-match lookup. -/
def mapInsert (m : List (String × Nat)) (k : String) (v : Nat) :
    List (String × Nat) :=
  (k, v) :: m

/-- `Datafile::new` with both arguments supplied (the `None` defaults are
`','` and `"\t"`, applied at the call sites below). -/
def Datafile.new (sep : Char) (ws : String) : Datafile :=
  .mk sep ws false [] [] []

/-- `Datafile::set_string`: resize `contents` with empty strings up to
`index + 1` when `index` is out of range, then overwrite slot `index`. -/
def Datafile.setString (df : Datafile) (value : String) (index : Nat) :
    Datafile :=
  match df with
  | .mk s w c cs ov m =>
    let cs' := if cs.length ≤ index
      then cs ++ List.replicate (index + 1 - cs.length) ""
      else cs
    .mk s w c (cs'.set index value) ov m

/-- `Datafile::get_string`: empty string when the index is out of range. -/
def Datafile.getString (df : Datafile) (index : Nat) : String :=
  df.contents.getD index ""

/-- `Datafile::get_value_count`. -/
def Datafile.getValueCount (df : Datafile) : Nat :=
  df.contents.length

/-- `Datafile::has_property`: pure `object_map` membership test. -/
def Datafile.hasProperty (df : Datafile) (name : String) : Bool :=
  (mapLookup df.objectMap name).isSome

/-- `Datafile::push_object`: append a `(name, child)` pair to `object_vec`
without touching `object_map`. -/
def Datafile.pushObject (df : Datafile) (name : String) (child : Datafile) :
    Datafile :=
  match df with
  | .mk s w c cs ov m => .mk s w c cs (ov ++ [(name, child)]) m

/-- `Datafile::get`: when `name` is absent, register it in `object_map` at
the current `object_vec` length and push a fresh empty child inheriting
the parent's separator and whitespace sequence.  The returned `&mut` to
`object_vec[object_map[name]].1` is modelled as the updated parent
together with that index. -/
def Datafile.get (df : Datafile) (name : String) : Datafile × Nat :=
  match mapLookup df.objectMap name with
  | some i => (df, i)
  | none =>
    match df with
    | .mk s w c cs ov m =>
      (.mk s w c cs (ov ++ [(name, Datafile.new s w)])
        (mapInsert m name ov.length), ov.length)

/-- Reading through the `&mut` returned by `get`: the child stored at a
given `object_vec` index (fresh empty node as the out-of-range default,
which no reachable state hits). -/
def Datafile.childAt (df : Datafile) (i : Nat) : Datafile :=
  (df.objectVec.getD i ("", Datafile.new ',' "\t")).2

/-- Replace the child at `object_vec` index `i`, keeping its name. -/
def setSnd : List (String × Datafile) → Nat → Datafile → List (String × Datafile)
  | [], _, _ => []
  | (n, _) :: rest, 0, d' => (n, d') :: rest
  | (n, d) :: rest, i + 1, d' => (n, d) :: setSnd rest i d'

def Datafile.setChildAt (df : Datafile) (i : Nat) (child : Datafile) :
    Datafile :=
  match df with
  | .mk s w c cs ov m => .mk s w c cs (setSnd ov i child) m

/-- Writing through the `&mut` returned by `get`: `f(self.get(name))` as a
functional update of the parent. -/
def Datafile.modifyChild (df : Datafile) (name : String)
    (f : Datafile → Datafile) : Datafile :=
  let (df', i) := df.get name
  df'.setChildAt i (f (df'.childAt i))

/-- `Datafile::get_property` on a pre-split segment list.  The Rust
recursion takes the text before the first `'.'` as the head segment and
recurses on the remainder, which is exactly head/tail recursion over
`dotSegments`; each step recurses only when `has_property` holds for the
head segment, otherwise it creates the head child and returns it.  The
returned reference is modelled as the `object_vec` index path to the
returned node. -/
def getPropertySegs : Datafile → String → List String → Datafile × List Nat
  | df, seg, [] =>
    let (df', i) := df.get seg
    (df', [i])
  | df, seg, next :: rest =>
    if df.hasProperty seg then
      let (df', i) := df.get seg
      let (child', p) := getPropertySegs (df'.childAt i) next rest
      (df'.setChildAt i child', i :: p)
    else
      let (df', i) := df.get seg
      (df', [i])

/-- `Datafile::get_property` on the dotted name. -/
def Datafile.getProperty (df : Datafile) (name : String) :
    Datafile × List Nat :=
  match dotSegments name with
  | [] => (df, [])
  | seg :: rest => getPropertySegs df seg rest

/-!  The parser, from src/processor/reader.rs.

A line source element is `Result<String, io::Error>`; the error payload
is irrelevant to control flow and modelled as `Unit`.  `Reader::read`
collects all such results first and only then parses, so a failed line
surfaces when the parser reaches it.  `read_inner(parent, lines, skip)`
iterates `lines.iter().skip(skip)` and recurses (for a header line at
absolute index `j`) with skip `j + 1`, i.e. on the suffix after the
current line; it is therefore embedded as recursion over the remaining
suffix directly.  The Rust function mutates `parent` in place and returns
`io::Result<()>`; the embedding returns the updated node paired with
`Option Unit` (`some ()` meaning an error was returned). -/

abbrev LineResult := Except Unit String

/-- `Reader::construct_comment_node`: a fresh node inheriting the parent's
separator and whitespace sequence, with the comment flag set. -/
def constructCommentNode (parent : Datafile) : Datafile :=
  .mk parent.listSeparator parent.whitespaceSequence true [] [] []

/-- `Reader::push_token_to_node`: trim key and token, then
`node.get(key).set_string(token, index)`. -/
def pushTokenToNode (key token : String) (index : Nat) (node : Datafile) :
    Datafile :=
  node.modifyChild (strTrim key) (fun ch => ch.setString (strTrim token) index)

/-- The character loop of `Reader::parse_value_from_line`, with the
quoted flag, the running token index, and the token buffer as explicit
state. -/
def parseValueAux (key : String) : List Char → Bool → Nat → List Char →
    Datafile → Datafile
  | [], _, tokenCount, token, node =>
    if token.isEmpty then node
    else pushTokenToNode key (String.mk token) tokenCount node
  | c :: rest, isInQuotes, tokenCount, token, node =>
    if c = '"' then
      parseValueAux key rest (!isInQuotes) tokenCount token node
    else if isInQuotes then
      parseValueAux key rest isInQuotes tokenCount (token ++ [c]) node
    else if c = node.listSeparator then
      parseValueAux key rest isInQuotes (tokenCount + 1) []
        (pushTokenToNode key (String.mk token) tokenCount node)
    else
      parseValueAux key rest isInQuotes tokenCount (token ++ [c]) node

/-- `Reader::parse_value_from_line`. -/
def parseValueFromLine (parent : Datafile) (key rawValue : String) :
    Datafile :=
  parseValueAux key rawValue.data false 0 [] parent

/-- `Reader::read_inner`, embedded over the suffix of lines that remains
to be processed (see the section comment).  Branches, in source order:
an errored line surfaces the error (`trim_line`'s `?`); an empty or
opening-brace line is skipped; a `#`-line pushes a comment child named by
the whole trimmed line; a closing-brace line returns to the caller; a
line without `'='` gets-or-creates a child and tail-returns the recursive
parse into it (the Rust `return Self::read_inner(...)`, so the current
scope's loop never resumes); a `'='` line with an empty raw value is
skipped, otherwise its value list is parsed onto the keyed child. -/
def readInner (parent : Datafile) : List LineResult → Datafile × Option Unit
  | [] => (parent, none)
  | .error _ :: _ => (parent, some ())
  | .ok rawLine :: rest =>
    let line := strTrim rawLine
    if line.data.isEmpty || strStartsWith line '{' then
      readInner parent rest
    else if strStartsWith line '#' then
      readInner (parent.pushObject line (constructCommentNode parent)) rest
    else if strStartsWith line '}' then
      (parent, none)
    else if !(strContains line '=') then
      let (parent', i) := parent.get line
      let (child', err) := readInner (parent'.childAt i) rest
      (parent'.setChildAt i child', err)
    else
      match strSplitOnce line '=' with
      | none => readInner parent rest
      | some (k, v) =>
        if v.data.isEmpty then readInner parent rest
        else readInner (parseValueFromLine parent k v) rest

/-- `Reader::read` (also `Datafile::read`): `File::open` is modelled by
an `Except` argument whose error branch is the `?` propagation before any
parsing; its ok branch carries the collected per-line results. -/
def readFile (df : Datafile)
    (openResult : Except Unit (List LineResult)) : Datafile × Option Unit :=
  match openResult with
  | .error _ => (df, some ())
  | .ok lines => readInner df lines

/-- Parse a list of raw text lines, all of which were read successfully. -/
def readLines (df : Datafile) (lines : List String) : Datafile × Option Unit :=
  readInner df (lines.map Except.ok)

/-!  The serializer, from src/processor/writer.rs.

`Writer::write` produces a buffer from a depth-first walk and strips one
leading newline; the `File::create` / `write_all` I/O glue is outside the
embedding.  `write_list` uses the root datafile's `list_separator` (the
writer's `data_file` field), while indentation uses each visited node's
own `whitespace_sequence`, exactly as in the source. -/

/-- `Writer::get_indentation`: the whitespace sequence repeated. -/
def getIndentation (indentLevel : Nat) (indentation : String) : String :=
  String.join (List.replicate indentLevel indentation)

/-- `Vec::join`-style interleaving used by `write_list`. -/
def joinSep (sep : String) : List String → String
  | [] => ""
  | [x] => x
  | x :: xs => x ++ sep ++ joinSep sep xs

/-- `Writer::write_list`: values joined by separator-plus-space, a value
containing the root separator wrapped in quotes. -/
def writeList (rootSep : Char) (node : Datafile) : String :=
  joinSep (String.mk [rootSep, ' '])
    (node.contents.map (fun v =>
      if strContains v rootSep then "\"" ++ v ++ "\"" else v))

/-- `Writer::write_value_key`: indentation, name, then `" = "` — or two
plain spaces around the empty string when the node is a comment. -/
def writeValueKey (node : Datafile) (name : String) (indentLevel : Nat) :
    String :=
  getIndentation indentLevel node.whitespaceSequence ++ name ++ " "
    ++ (if node.isComment then "" else "=") ++ " "

/-- `Writer::write_node_header`: blank line, indented name, indented
opening brace. -/
def writeNodeHeader (node : Datafile) (indentLevel : Nat) (name : String) :
    String :=
  let indentation := getIndentation indentLevel node.whitespaceSequence
  "\n" ++ indentation ++ name ++ "\n" ++ indentation ++ "\x7b" ++ "\n"

/-- `Writer::write_node_footer`: the indented closing brace. -/
def writeNodeFooter (node : Datafile) (indentLevel : Nat) : String :=
  getIndentation indentLevel node.whitespaceSequence ++ "\x7d" ++ "\n"

mutual

/-- `Writer::write_node`: iterate the node's children in insertion order;
a childless child gets a value line, a child with children gets header,
recursive body at depth + 1, and footer back at the original depth. -/
def writeNode (rootSep : Char) : Datafile → Nat → String
  | .mk _ _ _ _ kids _, indentLevel => writeEntries rootSep kids indentLevel

/-- The body of `write_node`'s `for` loop over `object_vec`. -/
def writeEntries (rootSep : Char) :
    List (String × Datafile) → Nat → String
  | [], _ => ""
  | (name, node) :: rest, indentLevel =>
    (if node.objectVec.isEmpty then
      writeValueKey node name indentLevel ++ writeList rootSep node ++ "\n"
    else
      writeNodeHeader node indentLevel name
        ++ writeNode rootSep node (indentLevel + 1)
        ++ writeNodeFooter node indentLevel)
    ++ writeEntries rootSep rest indentLevel

end

/-- `Writer::write` (the buffer production of `Datafile::write`): walk
from depth 0, then strip one leading newline if present. -/
def writeBuffer (df : Datafile) : String :=
  let buffer := writeNode df.listSeparator df 0
  if strStartsWith buffer '\n' then String.mk buffer.data.tail else buffer

/-!  The lexical coercion layer, from src/lexical/integer.rs and
src/lexical/real.rs.

Rust numeric parsing is modelled exactly on the finite decimal literals
the format's lexical layer is concerned with: an optional sign followed
by digits, optionally with one decimal point (`"1."` and `".5"` parse,
`"."` and `""` do not).  The `f32` forms with exponents or `inf`/`NaN`
spellings are outside the model.  A parsed real is the exact fraction
`numerator / denominator` represented as the pair `(Int, Nat)` with the
denominator the power of ten given by the fractional digit count; the
`as i32` cast truncates the fraction toward zero and saturates at the
`i32` bounds. -/

/-- Accumulate a digit string's value; fails on any non-digit. -/
def digitsValAux : List Char → Nat → Option Nat
  | [], acc => some acc
  | c :: cs, acc =>
    if c.isDigit then digitsValAux cs (acc * 10 + (c.toNat - '0'.toNat))
    else none

/-- The value of a non-empty all-digit string. -/
def digitsVal (l : List Char) : Option Nat :=
  match l with
  | [] => none
  | _ => digitsValAux l 0

/-- Strip one optional leading sign, yielding the sign factor. -/
def splitSign : List Char → Int × List Char
  | '+' :: rest => (1, rest)
  | '-' :: rest => (-1, rest)
  | l => (1, l)

/-- Model of `str::parse::<i32>`: optional sign, non-empty digits, and
the value must fit in the `i32` range. -/
def parseI32 (s : String) : Option Int :=
  let (sign, ds) := splitSign s.data
  (digitsVal ds).bind (fun n =>
    let v : Int := sign * n
    if -(2 ^ 31) ≤ v ∧ v < 2 ^ 31 then some v else none)

/-- Model of `str::parse::<f32>` on finite decimal literals: optional
sign, then digits with at most one decimal point and at least one digit
overall; the result is the exact value as a numerator/denominator pair. -/
def parseDecimal (s : String) : Option (Int × Nat) :=
  let (sign, ds) := splitSign s.data
  match splitOnceAux '.' ds with
  | none => (digitsVal ds).map (fun n => ((sign * n : Int), 1))
  | some (intPart, fracPart) =>
    if (intPart.all Char.isDigit && fracPart.all Char.isDigit)
        && !(intPart.isEmpty && fracPart.isEmpty) then
      match digitsValAux intPart 0, digitsValAux fracPart 0 with
      | some ip, some fp =>
        some ((sign * (ip * 10 ^ fracPart.length + fp) : Int),
          10 ^ fracPart.length)
      | _, _ => none
    else none

/-- Truncation toward zero of a fraction, `Int.tdiv` being T-division. -/
def fracTrunc (q : Int × Nat) : Int :=
  Int.tdiv q.1 q.2

/-- The saturation of Rust's float-to-`i32` `as` cast. -/
def satI32 (v : Int) : Int :=
  if v < -(2 ^ 31) then -(2 ^ 31)
  else if 2 ^ 31 - 1 < v then 2 ^ 31 - 1
  else v

/-- `parse::<f32>().unwrap_or(0.0)`: the parsed decimal value, `0.0` on
failure. -/
def parseDecimalOrZero (s : String) : Int × Nat :=
  match parseDecimal s with
  | some q => q
  | none => (0, 1)

/-- `<f32 as Serializable>::deserialize`: parse, retry with `','`
replaced by `'.'`, default `0.0`. -/
def realDeserialize (s : String) : Int × Nat :=
  match parseDecimal s with
  | some q => q
  | none => parseDecimalOrZero (strReplaceChar s ',' '.')

/-- `<i32 as Serializable>::deserialize`: parse base-10; on failure,
replace `','` by `'.'`, parse as a real, default `0.0`, and cast to
`i32` (truncation toward zero with saturation). -/
def integerDeserialize (s : String) : Int :=
  match parseI32 s with
  | some v => v
  | none => satI32 (fracTrunc (parseDecimalOrZero (strReplaceChar s ',' '.')))

/-- A single decimal digit character. -/
def digitChar : Nat → Char
  | 0 => '0' | 1 => '1' | 2 => '2' | 3 => '3' | 4 => '4'
  | 5 => '5' | 6 => '6' | 7 => '7' | 8 => '8' | 9 => '9'
  | _ => '*'

/-- Decimal digit characters of a natural number, most significant
first; the fuel argument (any bound above the digit count) makes the
recursion structural. -/
def natDigitsAux : Nat → Nat → List Char
  | 0, _ => []
  | fuel + 1, n =>
    if n < 10 then [digitChar n]
    else natDigitsAux fuel (n / 10) ++ [digitChar (n % 10)]

/-- The decimal representation of a natural number. -/
def natDecimalRepr (n : Nat) : String :=
  String.mk (natDigitsAux (n + 1) n)

/-- `<i32 as Serializable>::serialize`, i.e. `i32::to_string`: decimal
digits, preceded by `'-'` exactly when negative. -/
def integerSerialize (n : Int) : String :=
  if n < 0 then "-" ++ natDecimalRepr n.natAbs else natDecimalRepr n.toNat

/-!  Concrete inputs used by the claim theorems below. -/

/-- A tree built through the public API: `root.get("a").get("x")`
receives the string `"1"` at index 0, and `root.get("b")` receives the
string `"2"` at index 0 — a container child followed by a value child. -/
def c1Tree : Datafile :=
  ((Datafile.new ',' "\t").modifyChild "a"
    (fun a => a.modifyChild "x" (fun x => x.setString "1" 0))).modifyChild "b"
    (fun b => b.setString "2" 0)

/-- A nested container block followed by a sibling value line in the
enclosing scope. -/
def c2Lines : List String :=
  ["node", "\x7b", "x = 1", "\x7d", "sibling = 2"]

/-!  Helper lemmas and the claim theorems. -/

theorem strStartsWith_data_cons (s : String) (c d : Char) (t : List Char)
    (h : s.data = d :: t) : strStartsWith s c = decide (d = c) := by
  unfold strStartsWith
  rw [h]

theorem data_cons_of_startsWith (s : String) (c : Char)
    (h : strStartsWith s c = true) : ∃ t, s.data = c :: t := by
  unfold strStartsWith at h
  rcases hs : s.data with _ | ⟨d, t⟩
  · rw [hs] at h; cases h
  · rw [hs] at h
    simp only [decide_eq_true_eq] at h
    exact ⟨t, by rw [h]⟩

theorem contains_of_splitOnceAux (c : Char) (l : List Char)
    (p : List Char × List Char) (h : splitOnceAux c l = some p) :
    l.contains c = true := by
  induction l generalizing p with
  | nil => cases h
  | cons d ds ih =>
    unfold splitOnceAux at h
    by_cases hd : d = c
    · simp [List.contains_cons, hd]
    · rw [if_neg hd] at h
      cases hsp : splitOnceAux c ds with
      | none => rw [hsp] at h; cases h
      | some q =>
        rw [List.contains_cons, ih q hsp, Bool.or_true]

theorem pushObject_objectVec (df : Datafile) (n : String) (c : Datafile) :
    (df.pushObject n c).objectVec = df.objectVec ++ [(n, c)] := by
  cases df; rfl

theorem pushObject_objectMap (df : Datafile) (n : String) (c : Datafile) :
    (df.pushObject n c).objectMap = df.objectMap := by
  cases df; rfl

theorem readInner_comment_step (df : Datafile) (l : String)
    (rest : List LineResult) (h : strStartsWith (strTrim l) '#' = true) :
    readInner df (.ok l :: rest)
      = readInner (df.pushObject (strTrim l) (constructCommentNode df)) rest := by
  obtain ⟨t, ht⟩ := data_cons_of_startsWith _ _ h
  conv_lhs => unfold readInner
  simp only [ht, List.isEmpty_cons, strStartsWith_data_cons _ _ _ _ ht]
  norm_num
  exact fun hc => absurd hc (by decide)

/-- C9: a parsed line whose text after the first `'='` is empty is ignored
entirely: the parser state is unchanged by that line, no error is raised,
and parsing continues with the remaining lines. -/
theorem empty_value_line_is_ignored (df : Datafile) (l : String)
    (rest : List LineResult)
    (h0 : (strTrim l).data ≠ [])
    (h1 : strStartsWith (strTrim l) '{' = false)
    (h2 : strStartsWith (strTrim l) '#' = false)
    (h3 : strStartsWith (strTrim l) '}' = false)
    (h4 : (strSplitOnce (strTrim l) '=').map Prod.snd = some "") :
    readInner df (.ok l :: rest) = readInner df rest := by
  obtain ⟨p, hs, hv⟩ : ∃ p, strSplitOnce (strTrim l) '=' = some p ∧ p.2 = "" := by
    cases hsp : strSplitOnce (strTrim l) '=' with
    | none => rw [hsp] at h4; cases h4
    | some p => rw [hsp] at h4; exact ⟨p, rfl, Option.some.inj h4⟩
  have hc : strContains (strTrim l) '=' = true := by
    unfold strSplitOnce at hs
    cases hsa : splitOnceAux '=' (strTrim l).data with
    | none => rw [hsa] at hs; cases hs
    | some q => exact contains_of_splitOnceAux _ _ _ hsa
  have hmt : (strTrim l).data.isEmpty = false := by
    rcases hq : (strTrim l).data with _ | ⟨d, t⟩
    · exact absurd hq h0
    · rfl
  conv_lhs => unfold readInner
  simp only [hmt, h1, h2, h3, hc, Bool.or_self, Bool.not_true, if_false,
    Bool.false_eq_true, Bool.or_false]
  rw [hs]
  obtain ⟨k, v⟩ := p
  have hv' : v = "" := hv
  subst hv'
  rfl

/-- C9 witness: the line `key=` leaves the tree untouched; in particular
no child named `key` is created. -/
theorem empty_value_line_is_ignored_witness :
    (readInner (Datafile.new ',' "\t") [.ok "key="]
      = readInner (Datafile.new ',' "\t") [])
    ∧ (readInner (Datafile.new ',' "\t") [.ok "key="]).1.hasProperty "key"
        = false :=
  ⟨empty_value_line_is_ignored (Datafile.new ',' "\t") "key=" []
    (by decide) (by decide) (by decide) (by decide) (by decide), by decide⟩

/-- C1: the round-trip claim fails on the code.  A tree with a container
child `a` followed by a value child `b`, serialized and re-parsed into a
fresh root with the same separator and whitespace sequence, loses `b`
entirely: the parser returns out of the enclosing scope when the nested
block's closing brace is consumed. -/
theorem roundtrip_loses_sibling_after_container :
    c1Tree.hasProperty "a" = true ∧ c1Tree.hasProperty "b" = true
    ∧ writeBuffer c1Tree = "a\n\x7b\n\tx = 1\n\x7d\nb = 2\n"
    ∧ (readLines (Datafile.new ',' "\t") (rustLines (writeBuffer c1Tree))).2
        = none
    ∧ (readLines (Datafile.new ',' "\t")
        (rustLines (writeBuffer c1Tree))).1.hasProperty "a" = true
    ∧ (readLines (Datafile.new ',' "\t")
        (rustLines (writeBuffer c1Tree))).1.hasProperty "b" = false := by
  decide

/-- C2: after a nested container block is closed, the sibling line that
follows it in the enclosing scope is not parsed: the header branch of
`read_inner` returns the recursive call's result, so the enclosing
scope's loop never resumes. -/
theorem sibling_after_closed_block_is_dropped :
    (readLines (Datafile.new ',' "\t") c2Lines).2 = none
    ∧ (readLines (Datafile.new ',' "\t") c2Lines).1.hasProperty "node" = true
    ∧ ((readLines (Datafile.new ',' "\t") c2Lines).1.childAt 0).hasProperty "x"
        = true
    ∧ (((readLines (Datafile.new ',' "\t") c2Lines).1.childAt 0).childAt
        0).getString 0 = "1"
    ∧ (readLines (Datafile.new ',' "\t") c2Lines).1.hasProperty "sibling"
        = false := by
  decide

/-- C3: `get_property("a.b.c")` on an empty root creates only the first
missing segment: the result tree has a single child `a` with no children
of its own (`b` was never created), and the returned node is `a` itself
(index path `[0]`), not a node at the full three-segment path. -/
theorem get_property_stops_at_first_missing_segment :
    ((Datafile.new ',' "\t").getProperty "a.b.c").1.hasProperty "a" = true
    ∧ ((Datafile.new ',' "\t").getProperty "a.b.c").1.objectVec.length = 1
    ∧ (((Datafile.new ',' "\t").getProperty "a.b.c").1.childAt
        0).hasProperty "b" = false
    ∧ (((Datafile.new ',' "\t").getProperty "a.b.c").1.childAt
        0).objectVec.length = 0
    ∧ ((Datafile.new ',' "\t").getProperty "a.b.c").2 = [0] := by
  decide

/-- C4 counterexample: a readable first line followed by an unreadable
one makes `read` return an error after the tree has already been
mutated — the claim's atomicity fails. -/
theorem read_error_after_partial_mutation :
    (readFile (Datafile.new ',' "\t") (.ok [.ok "k = v", .error ()])).2
      = some ()
    ∧ (readFile (Datafile.new ',' "\t")
        (.ok [.ok "k = v", .error ()])).1.hasProperty "k" = true
    ∧ (Datafile.new ',' "\t").hasProperty "k" = false := by
  decide

/-- C4 (amended): an error opening the file is surfaced before any tree
mutation, and an unreadable line is surfaced exactly when the parser
reaches it, with no further mutation from that point on. -/
theorem read_error_surfacing_boundaries :
    (∀ df : Datafile, readFile df (.error ()) = (df, some ()))
    ∧ (∀ (df : Datafile) (rest : List LineResult),
        readInner df (.error () :: rest) = (df, some ())) :=
  ⟨fun _ => rfl, fun _ _ => rfl⟩

/-- C5 counterexample: parsing the line `#hello` appends a child whose
name is the whole trimmed line `"#hello"`, not the remainder `"hello"`
after the `'#'`. -/
theorem comment_child_keeps_hash_in_name :
    (readLines (Datafile.new ',' "\t") ["#hello"]).1.objectVec.map Prod.fst
      ≠ ["hello"]
    ∧ (readLines (Datafile.new ',' "\t") ["#hello"]).1.objectVec.map Prod.fst
      = ["#hello"] := by
  decide

/-- C5 (amended): for every trimmed line starting with `'#'`, the parser
appends to the current node a comment-flagged child carrying no values,
named by the entire trimmed line (the `'#'` included), appended directly
without registration in the lookup map; two identical comment lines
yield two distinct children. -/
theorem comment_line_appends_flagged_child (df : Datafile) (l : String)
    (rest : List LineResult) (h : strStartsWith (strTrim l) '#' = true) :
    readInner df (.ok l :: rest)
      = readInner (df.pushObject (strTrim l) (constructCommentNode df)) rest
    ∧ (df.pushObject (strTrim l) (constructCommentNode df)).objectVec
        = df.objectVec ++ [(strTrim l, constructCommentNode df)]
    ∧ (constructCommentNode df).isComment = true
    ∧ (constructCommentNode df).contents = []
    ∧ (df.pushObject (strTrim l) (constructCommentNode df)).objectMap
        = df.objectMap
    ∧ (readInner df [.ok l, .ok l]).1.objectVec.length
        = df.objectVec.length + 2 := by
  refine ⟨readInner_comment_step df l rest h, pushObject_objectVec _ _ _,
    rfl, rfl, pushObject_objectMap _ _ _, ?_⟩
  rw [show ([.ok l, .ok l] : List LineResult) = .ok l :: [.ok l] from rfl,
    readInner_comment_step df l [.ok l] h,
    readInner_comment_step _ l [] h]
  show (Datafile.pushObject _ _ _).objectVec.length = _
  rw [pushObject_objectVec, pushObject_objectVec]
  simp [List.length_append]

/-- C5 witness: the amended statement applied to the line `#note` on a
fresh root. -/
theorem comment_line_appends_flagged_child_witness :
    readInner (Datafile.new ',' "\t") [.ok "#note"]
      = readInner ((Datafile.new ',' "\t").pushObject (strTrim "#note")
          (constructCommentNode (Datafile.new ',' "\t"))) []
    ∧ ((Datafile.new ',' "\t").pushObject (strTrim "#note")
        (constructCommentNode (Datafile.new ',' "\t"))).objectVec
        = (Datafile.new ',' "\t").objectVec
          ++ [(strTrim "#note", constructCommentNode (Datafile.new ',' "\t"))]
    ∧ (constructCommentNode (Datafile.new ',' "\t")).isComment = true
    ∧ (constructCommentNode (Datafile.new ',' "\t")).contents = []
    ∧ ((Datafile.new ',' "\t").pushObject (strTrim "#note")
        (constructCommentNode (Datafile.new ',' "\t"))).objectMap
        = (Datafile.new ',' "\t").objectMap
    ∧ (readInner (Datafile.new ',' "\t")
        [.ok "#note", .ok "#note"]).1.objectVec.length
        = (Datafile.new ',' "\t").objectVec.length + 2 :=
  comment_line_appends_flagged_child (Datafile.new ',' "\t") "#note" []
    (by decide)

theorem digitChar_isDigit (n : Nat) (h : n < 10) :
    (digitChar n).isDigit = true := by
  interval_cases n <;> decide

theorem natDigitsAux_all_digits (fuel n : Nat) :
    (natDigitsAux fuel n).all Char.isDigit = true := by
  induction fuel generalizing n with
  | zero => rfl
  | succ f ih =>
    unfold natDigitsAux
    by_cases h : n < 10
    · rw [if_pos h]
      simp [digitChar_isDigit n h]
    · rw [if_neg h, List.all_append, ih (n / 10)]
      simp [digitChar_isDigit (n % 10) (Nat.mod_lt _ (by omega))]

/-- C6: integer deserialization parses base-10 first, falls back to the
real path truncating toward zero, defaults to 0; `"1.5"` and `"1,5"`
deserialize to the integer 1, `"1,5"` deserializes to the real 3/2; an
integer serializes to decimal digits with a sign only if negative. -/
theorem integer_coercion_contract :
    (∀ (s : String) (n : Int), parseI32 s = some n → integerDeserialize s = n)
    ∧ (∀ s : String, parseI32 s = none →
        integerDeserialize s
          = satI32 (fracTrunc (parseDecimalOrZero (strReplaceChar s ',' '.'))))
    ∧ (∀ s : String, parseI32 s = none →
        parseDecimal (strReplaceChar s ',' '.') = none →
          integerDeserialize s = 0)
    ∧ integerDeserialize "1.5" = 1
    ∧ integerDeserialize "1,5" = 1
    ∧ realDeserialize "1,5" = (15, 10)
    ∧ (realDeserialize "1,5").1 * 2 = 3 * ((realDeserialize "1,5").2 : Int)
    ∧ (∀ n : Int, 0 ≤ n → (integerSerialize n).data.all Char.isDigit = true)
    ∧ (∀ n : Int, n < 0 → ∃ t : List Char,
        (integerSerialize n).data = '-' :: t ∧ t.all Char.isDigit = true) := by
  refine ⟨?_, ?_, ?_, by decide, by decide, by decide, by decide, ?_, ?_⟩
  · intro s n h
    unfold integerDeserialize
    rw [h]
  · intro s h
    unfold integerDeserialize
    rw [h]
  · intro s h h2
    unfold integerDeserialize parseDecimalOrZero
    rw [h, h2]
    decide
  · intro n hn
    unfold integerSerialize
    rw [if_neg (by omega)]
    exact natDigitsAux_all_digits _ _
  · intro n hn
    unfold integerSerialize
    rw [if_pos hn]
    exact ⟨(natDecimalRepr n.natAbs).data, by
      rw [show ("-" ++ natDecimalRepr n.natAbs).data
        = '-' :: (natDecimalRepr n.natAbs).data from rfl],
      natDigitsAux_all_digits _ _⟩

/-- C6 witness: the contract applied at concrete inputs: `"7"` parses as
base-10 integer 7, `"x"` fails both parses and yields 0, `12` serializes
to digit characters, and `-3` serializes to a minus sign followed by
digit characters. -/
theorem integer_coercion_contract_witness :
    integerDeserialize "7" = 7
    ∧ integerDeserialize "x" = 0
    ∧ (integerSerialize 12).data.all Char.isDigit = true
    ∧ ∃ t : List Char,
        (integerSerialize (-3)).data = '-' :: t ∧ t.all Char.isDigit = true :=
  ⟨integer_coercion_contract.1 "7" 7 (by decide),
    integer_coercion_contract.2.2.1 "x" (by decide) (by decide),
    integer_coercion_contract.2.2.2.2.2.2.2.1 12 (by decide),
    integer_coercion_contract.2.2.2.2.2.2.2.2 (-3) (by decide)⟩

/-- C7: `set_string` keeps the value list contiguous: the new count is
the maximum of the old count and `k + 1`, every index newly created
below `k` holds the empty string, and index `k` holds the written
value. -/
theorem set_string_fill_on_write (df : Datafile) (v : String) (k : Nat) :
    (df.setString v k).getValueCount = max df.getValueCount (k + 1)
    ∧ (∀ i, df.getValueCount ≤ i → i < k → (df.setString v k).getString i = "")
    ∧ (df.setString v k).getString k = v := by
  obtain ⟨s, w, c, cs, ov, m⟩ := df
  simp only [Datafile.setString, Datafile.getValueCount, Datafile.getString,
    Datafile.contents]
  by_cases hk : cs.length ≤ k
  · simp only [if_pos hk]
    refine ⟨?_, ?_, ?_⟩
    · rw [List.length_set, List.length_append, List.length_replicate]
      omega
    · intro i hi hik
      rw [List.getD_eq_getElem?_getD, List.getElem?_set_ne (by omega : k ≠ i),
        List.getElem?_append_right (by exact hi), List.getElem?_replicate]
      rw [if_pos (by omega)]
      rfl
    · rw [List.getD_eq_getElem?_getD, List.getElem?_set_eq_of_lt v
        (by rw [List.length_append, List.length_replicate]; omega)]
      rfl
  · simp only [if_neg hk]
    refine ⟨?_, ?_, ?_⟩
    · rw [List.length_set]; omega
    · intro i hi hik; omega
    · rw [List.getD_eq_getElem?_getD, List.getElem?_set_eq_of_lt v (by omega)]
      rfl

/-- C7 witness: setting a value at index 5 on an empty node yields six
values, with the empty string at index 2 and the value at index 5. -/
theorem set_string_fill_on_write_witness :
    ((Datafile.new ',' "\t").setString "five" 5).getValueCount = max 0 6
    ∧ ((Datafile.new ',' "\t").setString "five" 5).getString 2 = ""
    ∧ ((Datafile.new ',' "\t").setString "five" 5).getString 5 = "five" :=
  ⟨(set_string_fill_on_write (Datafile.new ',' "\t") "five" 5).1,
    (set_string_fill_on_write (Datafile.new ',' "\t") "five" 5).2.1 2
      (by decide) (by decide),
    (set_string_fill_on_write (Datafile.new ',' "\t") "five" 5).2.2⟩

/-- C8: `get` on a missing name appends and registers exactly one empty
child (inheriting separator and whitespace) at the end of `object_vec`;
afterwards `has_property` holds, a repeated `get` returns the same tree
and the same child index, and `get` on any tree that already has the
name never changes the tree. -/
theorem get_autovivifies_exactly_once (df : Datafile) (name : String)
    (h : df.hasProperty name = false) :
    (df.get name).1.objectVec.length = df.objectVec.length + 1
    ∧ (df.get name).2 = df.objectVec.length
    ∧ (df.get name).1.hasProperty name = true
    ∧ (df.get name).1.childAt (df.get name).2
        = Datafile.new df.listSeparator df.whitespaceSequence
    ∧ (df.get name).1.get name = ((df.get name).1, (df.get name).2)
    ∧ ∀ g : Datafile, g.hasProperty name = true → (g.get name).1 = g := by
  have hn : mapLookup df.objectMap name = none := by
    unfold Datafile.hasProperty at h
    cases hml : mapLookup df.objectMap name with
    | none => rfl
    | some i => rw [hml] at h; cases h
  have hgen : ∀ g : Datafile, g.hasProperty name = true → (g.get name).1 = g := by
    intro g hg
    unfold Datafile.get
    cases hml : mapLookup g.objectMap name with
    | none => unfold Datafile.hasProperty at hg; rw [hml] at hg; cases hg
    | some i => rfl
  obtain ⟨s, w, c, cs, ov, m⟩ := df
  simp only [Datafile.objectMap] at hn
  simp only [Datafile.get, Datafile.objectMap, Datafile.objectVec,
    Datafile.listSeparator, Datafile.whitespaceSequence, hn]
  refine ⟨?_, ?_, ?_, ?_, ?_, hgen⟩
  all_goals simp [Datafile.hasProperty, Datafile.objectMap, Datafile.childAt,
    Datafile.objectVec, Datafile.get, mapInsert, mapLookup,
    List.getD_eq_getElem?_getD, List.getElem?_concat_length]

/-- C8 witness: the statement applied to the name `n` on a fresh root,
whose lookup map is empty. -/
theorem get_autovivifies_exactly_once_witness :
    ((Datafile.new ',' "\t").get "n").1.objectVec.length
      = (Datafile.new ',' "\t").objectVec.length + 1
    ∧ ((Datafile.new ',' "\t").get "n").2
      = (Datafile.new ',' "\t").objectVec.length
    ∧ ((Datafile.new ',' "\t").get "n").1.hasProperty "n" = true
    ∧ ((Datafile.new ',' "\t").get "n").1.childAt
        ((Datafile.new ',' "\t").get "n").2
      = Datafile.new (Datafile.new ',' "\t").listSeparator
          (Datafile.new ',' "\t").whitespaceSequence
    ∧ ((Datafile.new ',' "\t").get "n").1.get "n"
      = (((Datafile.new ',' "\t").get "n").1, ((Datafile.new ',' "\t").get "n").2)
    ∧ ∀ g : Datafile, g.hasProperty "n" = true → (g.get "n").1 = g :=
  get_autovivifies_exactly_once (Datafile.new ',' "\t") "n" (by decide)

/-- C10: a child with at least one child of its own is emitted as blank
line, name, opening brace, the recursively written block, and closing
brace; the node's own scalar values are not consulted, so replacing the
`contents` list changes nothing in the output. -/
theorem container_write_ignores_contents (rootSep s : Char) (w : String)
    (cm : Bool) (cont cont' : List String) (kids : List (String × Datafile))
    (m m' : List (String × Nat)) (rest : List (String × Datafile))
    (name : String) (level : Nat) (h : kids ≠ []) :
    writeEntries rootSep ((name, .mk s w cm cont kids m) :: rest) level
      = writeNodeHeader (.mk s w cm cont kids m) level name
        ++ (writeNode rootSep (.mk s w cm cont kids m) (level + 1)
          ++ (writeNodeFooter (.mk s w cm cont kids m) level
            ++ writeEntries rootSep rest level))
    ∧ writeEntries rootSep ((name, .mk s w cm cont kids m) :: rest) level
      = writeEntries rootSep ((name, .mk s w cm cont' kids m') :: rest) level := by
  have hke : ((Datafile.mk s w cm cont kids m).objectVec).isEmpty = false := by
    simp only [Datafile.objectVec]
    cases kids with
    | nil => exact absurd rfl h
    | cons a t => rfl
  constructor
  · conv_lhs => unfold writeEntries
    rw [hke]
    simp only [Bool.false_eq_true, if_false, String.append_assoc]
  · conv_lhs => unfold writeEntries
    conv_rhs => unfold writeEntries
    rw [hke]
    rw [show ((Datafile.mk s w cm cont' kids m').objectVec).isEmpty = false from hke]
    simp only [Bool.false_eq_true, if_false]
    rfl

/-- C10 witness: a container child holding the value `lost` emits the
same text as the same container with no values at all. -/
theorem container_write_ignores_contents_witness :
    writeEntries ','
      [("a", .mk ',' "\t" false ["lost"] [("x", Datafile.new ',' "\t")] [("x", 0)])] 0
      = writeNodeHeader
          (.mk ',' "\t" false ["lost"] [("x", Datafile.new ',' "\t")] [("x", 0)]) 0 "a"
        ++ (writeNode ','
            (.mk ',' "\t" false ["lost"] [("x", Datafile.new ',' "\t")] [("x", 0)]) (0 + 1)
          ++ (writeNodeFooter
              (.mk ',' "\t" false ["lost"] [("x", Datafile.new ',' "\t")] [("x", 0)]) 0
            ++ writeEntries ',' [] 0))
    ∧ writeEntries ','
        [("a", .mk ',' "\t" false ["lost"] [("x", Datafile.new ',' "\t")] [("x", 0)])] 0
      = writeEntries ','
        [("a", .mk ',' "\t" false [] [("x", Datafile.new ',' "\t")] [])] 0 :=
  container_write_ignores_contents ',' ',' "\t" false ["lost"] []
    [("x", Datafile.new ',' "\t")] [("x", 0)] [] [] "a" 0
    (List.cons_ne_nil _ _)
